import Mathlib

set_option maxRecDepth 8000

/-!
Shallow embedding of the prompt-assembly core of `src/main.py`
(the `get_prompt_for_claude` tool of the notebook-reviewer MCP server),
together with the `load_notebook_content` load path.

Python strings are modelled as `List Char`; Python `str.split('\n')` as
`splitLines`; Python `"sep".join(parts)` as `joinSep`; Python's non-negative
decimal rendering of an `int` as `Nat.repr`.
-/

/-- The characters Python's `str.strip()` removes (ASCII whitespace). -/
def pyIsSpace (c : Char) : Bool :=
  c == ' ' || c == '\t' || c == '\n' || c == '\r' || c == '\x0b' || c == '\x0c'

/-- Python `str.strip()`: drop whitespace from both ends. -/
def pyStrip (s : List Char) : List Char :=
  ((s.dropWhile pyIsSpace).reverse.dropWhile pyIsSpace).reverse

/-- Python `str.split('\n')`: always returns at least one (possibly empty) piece. -/
def splitLines : List Char → List (List Char)
  | [] => [[]]
  | c :: rest =>
    match splitLines rest with
    | [] => [[]]
    | l :: ls => if c = '\n' then [] :: l :: ls else (c :: l) :: ls

/-- Python `sep.join(parts)`. -/
def joinSep (sep : List Char) : List (List Char) → List Char
  | [] => []
  | [x] => x
  | x :: y :: rest => x ++ sep ++ joinSep sep (y :: rest)

/-- Python `"\n".join(parts)`. -/
def joinNL (parts : List (List Char)) : List Char := joinSep ['\n'] parts

/-- Python `str.capitalize()`: first character upper-cased, the rest lower-cased. -/
def pyCapitalize (s : List Char) : List Char :=
  match s with
  | [] => []
  | c :: rest => c.toUpper :: rest.map Char.toLower

/-! Truncation configuration constants of `get_prompt_for_claude`. -/

def MAX_LINES_PER_CODE_CELL : Nat := 15
def MAX_CHARS_PER_MD_CELL : Nat := 250
def MAX_OUTPUT_CHARS_STREAM : Nat := 100
def MAX_OUTPUT_CHARS_EXEC_RESULT : Nat := 150
def MAX_ERROR_CHARS : Nat := 100
def MAX_TOTAL_NOTEBOOK_CHARS : Nat := 150000

/-! Truncation primitives, one per call site in the source. -/

/-- The marker spliced into an over-long code cell source;
`k` is the number of omitted lines. -/
def codeMarker (k : Nat) : List Char :=
  "\n... [CODE TRUNCATED - ".toList ++ (Nat.repr k).toList ++ " lines omitted] ...\n".toList

/-- Line-based head/tail truncation of a code cell source (lines 106-113). -/
def trimCode (source : List Char) : List Char :=
  let lines := splitLines source
  if lines.length > MAX_LINES_PER_CODE_CELL then
    joinNL (lines.take (MAX_LINES_PER_CODE_CELL / 2))
      ++ codeMarker (lines.length - MAX_LINES_PER_CODE_CELL)
      ++ joinNL (lines.drop (lines.length - (MAX_LINES_PER_CODE_CELL - MAX_LINES_PER_CODE_CELL / 2)))
  else source

def mdMarker : List Char := "\n... [MARKDOWN TRUNCATED] ...".toList

/-- Character-based head-only truncation of a markdown cell source (lines 115-117). -/
def trimMarkdown (source : List Char) : List Char :=
  if source.length > MAX_CHARS_PER_MD_CELL then
    source.take MAX_CHARS_PER_MD_CELL ++ mdMarker
  else source

def streamMarker : List Char := "\n... [STREAM OUTPUT TRUNCATED - middle omitted] ...\n".toList

/-- Character-based head/tail truncation of a stream output (lines 123-132);
the tail length is computed over the integers and clamped at 0. -/
def truncStream (t : List Char) : List Char :=
  if t.length > MAX_OUTPUT_CHARS_STREAM then
    let head_len := MAX_OUTPUT_CHARS_STREAM / 2
    let tail0 : Int :=
      (MAX_OUTPUT_CHARS_STREAM : Int) - (head_len : Int) - (streamMarker.length : Int)
    let tail_len : Nat := (if tail0 < 0 then (0 : Int) else tail0).toNat
    t.take head_len ++ streamMarker ++ t.drop (t.length - tail_len)
  else t

def execMarker : List Char := "\n... [EXEC RESULT TRUNCATED - middle omitted] ...\n".toList

/-- Character-based head/tail truncation of an execute_result output (lines 140-147). -/
def truncExec (t : List Char) : List Char :=
  if t.length > MAX_OUTPUT_CHARS_EXEC_RESULT then
    let head_len := MAX_OUTPUT_CHARS_EXEC_RESULT / 2
    let tail0 : Int :=
      (MAX_OUTPUT_CHARS_EXEC_RESULT : Int) - (head_len : Int) - (execMarker.length : Int)
    let tail_len : Nat := (if tail0 < 0 then (0 : Int) else tail0).toNat
    t.take head_len ++ execMarker ++ t.drop (t.length - tail_len)
  else t

def errMarker : List Char := "\n... [ERROR TRUNCATED] ...".toList

/-- Character-based head-only truncation of an error output (lines 153-154). -/
def truncError (t : List Char) : List Char :=
  if t.length > MAX_ERROR_CHARS then t.take MAX_ERROR_CHARS ++ errMarker else t

/-! Data model: the cell records built by the load tools of `src/main.py`. -/

/-- A value in an execute_result `data` mapping: Python gives either a string
or a list of line strings under a MIME-type key. -/
inductive JVal where
  | str : List Char → JVal
  | arr : List (List Char) → JVal
deriving DecidableEq

/-- One recorded execution output.  Mirrors the duck-typed Python output
object: the `output_type` string decides which fields the renderer reads. -/
structure Output where
  output_type : List Char
  text : List Char := []
  data : List (List Char × JVal) := []
  ename : List Char := []
  evalue : List Char := []
deriving DecidableEq

/-- One notebook cell as stored by `load_notebook` / `load_notebook_content`. -/
structure Cell where
  type : List Char
  source : List Char
  outputs : List Output := []
deriving DecidableEq

/-- First-match lookup in an execute_result data mapping
(Python dict membership plus access). -/
def dataGet (d : List (List Char × JVal)) (k : List Char) : Option JVal :=
  match d with
  | [] => none
  | (k2, v) :: rest => if k2 = k then some v else dataGet rest k

/-- Normalise a `text/plain` value to one string: a list of lines is joined
with newlines (lines 138-139). -/
def normPlain : JVal → List Char
  | .str v => v
  | .arr vs => joinNL vs

/-! Cell renderer (lines 100-157). -/

def streamWrap (d : List Char) : List Char :=
  "Output (stream):\n```\n".toList ++ d ++ "\n```".toList

def resultWrap (d : List Char) : List Char :=
  "Output (result):\n```\n".toList ++ d ++ "\n```".toList

def errorWrap (d : List Char) : List Char :=
  "Output (error):\n```\n".toList ++ d ++ "\n```".toList

def imageLine : List Char :=
  "Output (image/plot): [Image data omitted. Refer to code for generation logic.]".toList

/-- The text of an error output before truncation (line 152). -/
def errorText (ename evalue : List Char) : List Char :=
  "Error Type: ".toList ++ ename ++ "\nError Value: ".toList ++ evalue

/-- The pieces one output contributes to `output_text_parts` (lines 122-155). -/
def renderOutput (o : Output) : List (List Char) :=
  if o.output_type = "stream".toList then
    [streamWrap (truncStream o.text)]
  else if o.output_type = "execute_result".toList then
    match dataGet o.data "text/plain".toList with
    | some v => [resultWrap (truncExec (normPlain v))]
    | none =>
      match dataGet o.data "image/png".toList with
      | some _ => [imageLine]
      | none => []
  else if o.output_type = "error".toList then
    [errorWrap (truncError (errorText o.ename o.evalue))]
  else []

/-- `cell_parts` after the source branch (lines 104-118). -/
def cellParts (c : Cell) : List (List Char) :=
  let source := pyStrip c.source
  if c.type = "code".toList then [trimCode source]
  else if c.type = "markdown".toList then [trimMarkdown source]
  else []

/-- `output_text_parts` (lines 120-155): outputs render only for code cells. -/
def outputParts (c : Cell) : List (List Char) :=
  if c.type = "code".toList then (c.outputs.map renderOutput).join
  else []

def sepNN : List Char := "\n\n".toList

/-- `cell_content` (line 157). -/
def cellContent (c : Cell) : List Char :=
  joinSep sepNN (cellParts c ++ outputParts c)

/-- `cell_header` (line 102): 1-based index and capitalised type. -/
def cellHeader (idx : Nat) (c : Cell) : List Char :=
  "# Cell ".toList ++ (Nat.repr (idx + 1)).toList ++ " - ".toList
    ++ pyCapitalize c.type ++ "\n".toList

/-- The full rendered block of one cell: header plus content. -/
def blockAt (idx : Nat) (c : Cell) : List Char := cellHeader idx c ++ cellContent c

/-! Notebook assembler (lines 97-167). -/

def skipMarker : List Char :=
  "[Remaining cell content and subsequent cells skipped due to overall notebook content length limit.]".toList

/-- The assembly loop over `notebook_cells` (lines 100-165): `idx` is the
0-based position of the next cell, `running` the character total so far. -/
def assembleGo (idx running : Nat) : List Cell → List (List Char)
  | [] => []
  | c :: rest =>
    let header := cellHeader idx c
    let content := cellContent c
    if running + header.length + content.length > MAX_TOTAL_NOTEBOOK_CHARS then
      [header ++ skipMarker]
    else
      (header ++ content) :: assembleGo (idx + 1) (running + header.length + content.length) rest

/-- `final_notebook_content_str` (line 167). -/
def finalNotebookContentStr (cells : List Cell) : List Char :=
  joinSep sepNN (assembleGo 0 0 cells)

/-- The rendered blocks of all cells in order, ignoring the budget:
what the loop appends while the limit never triggers. -/
def blocksFrom (idx : Nat) : List Cell → List (List Char)
  | [] => []
  | c :: rest => blockAt idx c :: blocksFrom (idx + 1) rest

/-- Sum of the lengths of the first `m` rendered blocks: the value of
`current_total_notebook_chars` after `m` appends. -/
def sumUpTo (idx : Nat) (cells : List Cell) (m : Nat) : Nat :=
  (((blocksFrom idx cells).take m).map List.length).sum

/-- The largest header length among the cells (at their loop positions). -/
def maxHeaderFrom (idx : Nat) : List Cell → Nat
  | [] => 0
  | c :: rest => max (cellHeader idx c).length (maxHeaderFrom (idx + 1) rest)

/-! Prompt composer (lines 170-188). -/

def promptHead : List Char :=
  ("Below is the content of a Jupyter notebook. Please review this notebook based on the specific guidelines provided afterwards.\nNote that some code cells, markdown cells, or their outputs may be truncated due to length limits.\n\n--- START NOTEBOOK CONTENT ---\n").toList

def promptMid : List Char :=
  "\n--- END NOTEBOOK CONTENT ---\n\n--- REVIEW GUIDELINES ---\n".toList

def promptTail : List Char :=
  ("--- END REVIEW GUIDELINES ---\n\n--- ANALYSIS INSTRUCTIONS ---\nPlease evaluate the notebook content based on the guidelines. For each guideline, state whether it is met or not, and provide specific, constructive feedback and reasoning. Cite specific cell numbers where relevant.\nExample feedback format:\nGuideline X: [Met/Not Met]\nFeedback: [Your specific feedback, referencing relevant cell numbers]\n\n--- END ANALYSIS INSTRUCTIONS ---\n").toList

/-- One line of the guidelines section (line 178). -/
def glLine (i : Nat) (g : List Char) : List Char :=
  "Guideline ".toList ++ (Nat.repr i).toList ++ ": ".toList ++ g ++ "\n".toList

/-- The `for i, guideline in enumerate(guidelines, 1)` loop (lines 177-178). -/
def glLoop (i : Nat) : List (List Char) → List Char
  | [] => []
  | g :: rest => glLine i g ++ glLoop (i + 1) rest

def noGuidelinesMsg : List Char :=
  "No guidelines loaded. Use `load_guidelines()` first.".toList

def noNotebookMsg : List Char :=
  "No notebook loaded. Use `load_notebook()` or `load_notebook_content()` first.".toList

/-- The body of `get_prompt_for_claude` as a function of the two state slots
(lines 77-188), including the final `.strip()`. -/
def getPromptCore (gd : List (List Char)) (cells : List Cell) : List Char :=
  if gd = [] then noGuidelinesMsg
  else if cells = [] then noNotebookMsg
  else
    pyStrip (promptHead ++ finalNotebookContentStr cells ++ promptMid
      ++ glLoop 1 gd ++ promptTail)

/-- The extra positional and keyword arguments the Python signature
`get_prompt_for_claude(*args, **kwargs)` accepts (line 73). -/
structure PyArgs where
  args : List (List Char)
  kwargs : List (List Char × List Char)

/-- `get_prompt_for_claude(*args, **kwargs)`: the body never reads `a`. -/
def get_prompt_for_claude (a : PyArgs) (gd : List (List Char)) (cells : List Cell) :
    List Char :=
  getPromptCore gd cells

/-! The `load_notebook_content` tool (lines 50-67). -/

/-- One raw cell as produced by the external `nbformat` parser:
`outputs` is `none` when the attribute is missing. -/
structure RawCell where
  cell_type : List Char
  source : List Char
  outputs : Option (List Output)

/-- The per-cell extraction in the comprehension (line 61). -/
def extractCell (rc : RawCell) : Cell :=
  { type := rc.cell_type, source := pyStrip rc.source, outputs := rc.outputs.getD [] }

/-- `load_notebook_content` over an abstract `nbformat.reads`: returns the new
state slot together with the reply string.  A parse failure is caught and
reported; the old state is cleared and repopulated only on success. -/
def load_notebook_content (reads : List Char → Except (List Char) (List RawCell))
    (st : List Cell) (json_string : List Char) : List Cell × List Char :=
  match reads json_string with
  | .error e => (st, "Failed to parse notebook JSON: ".toList ++ e)
  | .ok nb =>
    (nb.map extractCell,
     (Nat.repr (nb.map extractCell).length).toList
       ++ " notebook cell(s) loaded from pasted content.".toList)

/-! Helper lemmas about the text model. -/

lemma dropWhile_all_false {p : Char → Bool} :
    ∀ s : List Char, (∀ c ∈ s, p c = false) → s.dropWhile p = s
  | [], _ => rfl
  | c :: rest, h => by
    have hc := h c (List.mem_cons_self c rest)
    simp [List.dropWhile, hc]

lemma pyStrip_eq_self (s : List Char) (h : ∀ c ∈ s, pyIsSpace c = false) :
    pyStrip s = s := by
  unfold pyStrip
  rw [dropWhile_all_false s h]
  rw [dropWhile_all_false s.reverse (by intro c hc; exact h c (List.mem_reverse.mp hc))]
  exact List.reverse_reverse s

lemma splitLines_no_nl : ∀ s : List Char, '\n' ∉ s → splitLines s = [s]
  | [], _ => rfl
  | c :: rest, h => by
    have h1 : ¬ (c = '\n') := fun hh => h (hh ▸ List.mem_cons_self c rest)
    have h2 : '\n' ∉ rest := fun hm => h (List.mem_cons_of_mem _ hm)
    rw [splitLines, splitLines_no_nl rest h2]
    simp [h1]

lemma joinSep_singleton (sep : List Char) (x : List Char) : joinSep sep [x] = x := rfl

lemma joinSep_length_eq :
    ∀ l : List (List Char), l ≠ [] →
      (joinSep sepNN l).length = (l.map List.length).sum + 2 * (l.length - 1)
  | [], h => absurd rfl h
  | [x], _ => by simp [joinSep]
  | x :: y :: rest, _ => by
    have ih := joinSep_length_eq (y :: rest) (by simp)
    simp only [joinSep, List.length_append, List.map_cons, List.sum_cons, List.length_cons] at ih ⊢
    have hsep : sepNN.length = 2 := rfl
    omega

lemma joinSep_length_le (l : List (List Char)) :
    (joinSep sepNN l).length ≤ (l.map List.length).sum + 2 * l.length := by
  cases l with
  | nil => simp [joinSep]
  | cons x rest =>
    have := joinSep_length_eq (x :: rest) (by simp)
    omega


/-! Helper lemmas about the renderer and assembler. -/

lemma cellContent_code_plain (s : List Char) (h : ∀ c ∈ s, pyIsSpace c = false) :
    cellContent { type := "code".toList, source := s, outputs := [] } = s := by
  have hnl : '\n' ∉ s := by
    intro hm
    have := h _ hm
    simp [pyIsSpace] at this
  have hstrip : pyStrip s = s := pyStrip_eq_self s h
  have hsplit : splitLines s = [s] := splitLines_no_nl s hnl
  simp [cellContent, cellParts, outputParts, hstrip, trimCode, hsplit,
    MAX_LINES_PER_CODE_CELL, joinSep]

lemma blocksFrom_length : ∀ (cells : List Cell) (idx : Nat),
    (blocksFrom idx cells).length = cells.length
  | [], _ => rfl
  | _ :: rest, idx => by
    simp [blocksFrom, blocksFrom_length rest (idx + 1)]

lemma blockAt_length (idx : Nat) (c : Cell) :
    (blockAt idx c).length = (cellHeader idx c).length + (cellContent c).length := by
  simp [blockAt]

lemma sumUpTo_one (idx : Nat) (c : Cell) (rest : List Cell) :
    sumUpTo idx (c :: rest) 1 = (blockAt idx c).length := by
  simp [sumUpTo, blocksFrom]

lemma sumUpTo_cons_succ (idx : Nat) (c : Cell) (rest : List Cell) (m : Nat) :
    sumUpTo idx (c :: rest) (m + 1) = (blockAt idx c).length + sumUpTo (idx + 1) rest m := by
  simp [sumUpTo, blocksFrom]

lemma assembleGo_all_fit :
    ∀ (cells : List Cell) (idx r : Nat),
      r + ((blocksFrom idx cells).map List.length).sum ≤ MAX_TOTAL_NOTEBOOK_CHARS →
      assembleGo idx r cells = blocksFrom idx cells
  | [], _, _, _ => rfl
  | c :: rest, idx, r, h => by
    have hb : (blockAt idx c).length
        = (cellHeader idx c).length + (cellContent c).length := blockAt_length idx c
    have hsum : ((blocksFrom idx (c :: rest)).map List.length).sum
        = (blockAt idx c).length + ((blocksFrom (idx + 1) rest).map List.length).sum := by
      simp [blocksFrom]
    have hcond : ¬ (r + (cellHeader idx c).length + (cellContent c).length
        > MAX_TOTAL_NOTEBOOK_CHARS) := by omega
    have ih := assembleGo_all_fit rest (idx + 1)
      (r + (cellHeader idx c).length + (cellContent c).length) (by omega)
    simp only [assembleGo, hcond, if_false, ih, blocksFrom, blockAt]

lemma assembleGo_stop :
    ∀ (cells : List Cell) (idx r k : Nat) (hk : k < cells.length),
      MAX_TOTAL_NOTEBOOK_CHARS < r + sumUpTo idx cells (k + 1) →
      (∀ j, j < k → r + sumUpTo idx cells (j + 1) ≤ MAX_TOTAL_NOTEBOOK_CHARS) →
      assembleGo idx r cells =
        (blocksFrom idx cells).take k
          ++ [cellHeader (idx + k) (cells.get ⟨k, hk⟩) ++ skipMarker]
  | [], _, _, k, hk, _, _ => by simp at hk
  | c :: rest, idx, r, 0, hk, hov, _ => by
    rw [sumUpTo_one, blockAt_length] at hov
    have hcond : r + (cellHeader idx c).length + (cellContent c).length
        > MAX_TOTAL_NOTEBOOK_CHARS := by omega
    simp only [assembleGo, hcond, if_true, List.take_zero, List.nil_append,
      List.get, Nat.add_zero]
  | c :: rest, idx, r, k + 1, hk, hov, hfit => by
    have hfit0 := hfit 0 (Nat.succ_pos k)
    rw [sumUpTo_one, blockAt_length] at hfit0
    have hcond : ¬ (r + (cellHeader idx c).length + (cellContent c).length
        > MAX_TOTAL_NOTEBOOK_CHARS) := by omega
    have hk' : k < rest.length := by simpa using Nat.lt_of_succ_lt_succ hk
    have hov' : MAX_TOTAL_NOTEBOOK_CHARS <
        (r + (cellHeader idx c).length + (cellContent c).length)
          + sumUpTo (idx + 1) rest (k + 1) := by
      rw [sumUpTo_cons_succ, blockAt_length] at hov
      omega
    have hfit' : ∀ j, j < k →
        (r + (cellHeader idx c).length + (cellContent c).length)
          + sumUpTo (idx + 1) rest (j + 1) ≤ MAX_TOTAL_NOTEBOOK_CHARS := by
      intro j hj
      have := hfit (j + 1) (Nat.succ_lt_succ hj)
      rw [sumUpTo_cons_succ, blockAt_length] at this
      omega
    have ih := assembleGo_stop rest (idx + 1)
      (r + (cellHeader idx c).length + (cellContent c).length) k hk' hov' hfit'
    simp only [assembleGo, hcond, if_false, ih, blocksFrom, List.take_succ_cons,
      List.cons_append, List.get_cons_succ, blockAt]
    have hidx : idx + 1 + k = idx + (k + 1) := by omega
    rw [hidx]

lemma assembleGo_count_le :
    ∀ (cells : List Cell) (idx r : Nat), (assembleGo idx r cells).length ≤ cells.length
  | [], _, _ => by simp [assembleGo]
  | c :: rest, idx, r => by
    by_cases hcond : r + (cellHeader idx c).length + (cellContent c).length
        > MAX_TOTAL_NOTEBOOK_CHARS
    · simp only [assembleGo, hcond, if_true]
      simp
    · simp only [assembleGo, hcond, if_false, List.length_cons]
      exact Nat.succ_le_succ (assembleGo_count_le rest (idx + 1) _)

lemma assembleGo_sum_le :
    ∀ (cells : List Cell) (idx r : Nat), r ≤ MAX_TOTAL_NOTEBOOK_CHARS →
      r + ((assembleGo idx r cells).map List.length).sum
        ≤ MAX_TOTAL_NOTEBOOK_CHARS + maxHeaderFrom idx cells + skipMarker.length
  | [], _, _, h => by simp [assembleGo]; omega
  | c :: rest, idx, r, h => by
    have hmaxl : (cellHeader idx c).length ≤ maxHeaderFrom idx (c :: rest) :=
      le_max_left _ _
    have hmaxr : maxHeaderFrom (idx + 1) rest ≤ maxHeaderFrom idx (c :: rest) :=
      le_max_right _ _
    by_cases hcond : r + (cellHeader idx c).length + (cellContent c).length
        > MAX_TOTAL_NOTEBOOK_CHARS
    · simp only [assembleGo, hcond, if_true, List.map_cons, List.map_nil,
        List.sum_cons, List.sum_nil, List.length_append]
      omega
    · have ih := assembleGo_sum_le rest (idx + 1)
        (r + (cellHeader idx c).length + (cellContent c).length) (by omega)
      simp only [assembleGo, hcond, if_false, List.map_cons, List.sum_cons,
        List.length_append]
      omega

lemma glLoop_eq :
    ∀ (gs : List (List Char)) (k : Nat),
      glLoop k gs
        = (((List.range gs.length).zip gs).map (fun p => glLine (p.1 + k) p.2)).join
  | [], _ => rfl
  | g :: rest, k => by
    have ih := glLoop_eq rest (k + 1)
    rw [glLoop, ih]
    simp only [List.length_cons, List.range_succ_eq_map, List.zip_cons_cons,
      List.map_cons, List.join_cons, List.zip_map_left, List.map_map]
    congr 1
    · simp
    · congr 1
      apply List.map_congr_left
      intro p _
      cases p with
      | mk a b =>
        simp only [Function.comp_apply, Prod.map_apply, id_eq]
        rw [show a + (k + 1) = a.succ + k from by omega]

/-! The untruncated render: the same pipeline with every truncation branch
removed, used to state idempotence of non-triggering truncation. -/

/-- `renderOutput` with all truncation removed. -/
def renderOutputU (o : Output) : List (List Char) :=
  if o.output_type = "stream".toList then
    [streamWrap o.text]
  else if o.output_type = "execute_result".toList then
    match dataGet o.data "text/plain".toList with
    | some v => [resultWrap (normPlain v)]
    | none =>
      match dataGet o.data "image/png".toList with
      | some _ => [imageLine]
      | none => []
  else if o.output_type = "error".toList then
    [errorWrap (errorText o.ename o.evalue)]
  else []

/-- `cellParts` with all truncation removed. -/
def cellPartsU (c : Cell) : List (List Char) :=
  let source := pyStrip c.source
  if c.type = "code".toList then [source]
  else if c.type = "markdown".toList then [source]
  else []

/-- `outputParts` with all truncation removed. -/
def outputPartsU (c : Cell) : List (List Char) :=
  if c.type = "code".toList then (c.outputs.map renderOutputU).join
  else []

/-- The fully untruncated rendered block of one cell. -/
def blockAtU (idx : Nat) (c : Cell) : List Char :=
  cellHeader idx c ++ joinSep sepNN (cellPartsU c ++ outputPartsU c)

lemma renderOutput_eq_untruncated (o : Output)
    (hstream : o.output_type = "stream".toList → o.text.length ≤ MAX_OUTPUT_CHARS_STREAM)
    (hexec : o.output_type = "execute_result".toList →
      ∀ v, dataGet o.data "text/plain".toList = some v →
        (normPlain v).length ≤ MAX_OUTPUT_CHARS_EXEC_RESULT)
    (herr : o.output_type = "error".toList →
      (errorText o.ename o.evalue).length ≤ MAX_ERROR_CHARS) :
    renderOutput o = renderOutputU o := by
  unfold renderOutput renderOutputU
  by_cases h1 : o.output_type = "stream".toList
  · have := hstream h1
    simp only [h1, if_true, truncStream]
    rw [if_neg (by omega)]
  · simp only [h1, if_false]
    by_cases h2 : o.output_type = "execute_result".toList
    · simp only [h2, if_true]
      cases hv : dataGet o.data "text/plain".toList with
      | none => rfl
      | some v =>
        have := hexec h2 v hv
        simp only [truncExec]
        rw [if_neg (by omega)]
    · simp only [h2, if_false]
      by_cases h3 : o.output_type = "error".toList
      · have := herr h3
        simp only [h3, if_true, truncError]
        rw [if_neg (by omega)]
      · simp only [h3, if_false]

/-! Claim theorems. -/

/-- C10: `get_prompt_for_claude` accepts arbitrary positional and keyword
arguments and ignores them entirely: in the same guideline and notebook
state, any two argument lists give the identical string. -/
theorem C10_args_ignored (a b : PyArgs) (gd : List (List Char)) (cells : List Cell) :
    get_prompt_for_claude a gd cells = get_prompt_for_claude b gd cells := rfl

/-- C9: when the JSON parse fails, `load_notebook_content` returns an error
string and leaves the previously loaded notebook cell state unchanged. -/
theorem C9_parse_failure_preserves_state
    (reads : List Char → Except (List Char) (List RawCell)) (st : List Cell)
    (js e : List Char) (h : reads js = Except.error e) :
    load_notebook_content reads st js
      = (st, "Failed to parse notebook JSON: ".toList ++ e) := by
  unfold load_notebook_content
  rw [h]

def c9reads : List Char → Except (List Char) (List RawCell) :=
  fun _ => Except.error "oops".toList

def c9state : List Cell := [{ type := "code".toList, source := ['x'], outputs := [] }]

/-- Witness for C9 at a concrete failing parse function and prior state. -/
theorem C9_witness :
    c9reads "notjson".toList = Except.error "oops".toList ∧
    load_notebook_content c9reads c9state "notjson".toList
      = (c9state, "Failed to parse notebook JSON: ".toList ++ "oops".toList) :=
  ⟨rfl, C9_parse_failure_preserves_state c9reads c9state "notjson".toList "oops".toList rfl⟩

/-- C7: with no guidelines loaded the entry point returns the descriptive
string containing "No guidelines loaded"; with guidelines but no notebook it
returns the missing-notebook message.  Both paths return strings, never fail. -/
theorem C7_empty_state_messages (gd : List (List Char)) (cells : List Cell) :
    (gd = [] → getPromptCore gd cells = noGuidelinesMsg ∧
      ∃ l r, getPromptCore gd cells = l ++ "No guidelines loaded".toList ++ r) ∧
    (gd ≠ [] → cells = [] → getPromptCore gd cells = noNotebookMsg) := by
  constructor
  · intro hg
    subst hg
    refine ⟨rfl, [], ". Use `load_guidelines()` first.".toList, ?_⟩
    show noGuidelinesMsg = _
    decide
  · intro hg hc
    subst hc
    unfold getPromptCore
    rw [if_neg hg]
    rfl

/-- Witness for C7 at concrete empty states. -/
theorem C7_witness :
    getPromptCore [] [] = noGuidelinesMsg ∧
    getPromptCore ["g".toList] [] = noNotebookMsg :=
  ⟨((C7_empty_state_messages [] []).1 rfl).1,
   (C7_empty_state_messages ["g".toList] []).2 (by simp) rfl⟩

/-- C5: a code cell source longer than 15 lines renders as its first 7 lines,
then a marker stating exactly `lines - 15` omitted lines, then its last 8
lines. -/
theorem C5_code_line_truncation (s : List Char)
    (h : 15 < (splitLines s).length) :
    trimCode s
      = joinNL ((splitLines s).take 7)
        ++ codeMarker ((splitLines s).length - 15)
        ++ joinNL ((splitLines s).drop ((splitLines s).length - 8)) ∧
    ((splitLines s).take 7).length = 7 ∧
    ((splitLines s).drop ((splitLines s).length - 8)).length = 8 ∧
    ∃ l r, codeMarker ((splitLines s).length - 15)
      = l ++ ((Nat.repr ((splitLines s).length - 15)).toList
          ++ " lines omitted".toList) ++ r := by
  have hif : (splitLines s).length > MAX_LINES_PER_CODE_CELL := by
    simpa [MAX_LINES_PER_CODE_CELL] using h
  refine ⟨?_, ?_, ?_, ?_⟩
  · simp only [trimCode, hif, if_true]
    rfl
  · simp only [List.length_take]
    omega
  · simp only [List.length_drop]
    omega
  · refine ⟨"\n... [CODE TRUNCATED - ".toList, "] ...\n".toList, ?_⟩
    unfold codeMarker
    rw [show " lines omitted] ...\n".toList
        = " lines omitted".toList ++ "] ...\n".toList from by decide]
    simp [List.append_assoc]

def c5src : List Char :=
  "a1\na2\na3\na4\na5\na6\na7\na8\na9\nb0\nb1\nb2\nb3\nb4\nb5\nb6\nb7\nb8\nb9\nc0".toList

/-- Witness for C5: a concrete 20-line source renders as first 7 lines, a
marker stating "5 lines omitted", then the last 8 lines. -/
theorem C5_witness :
    15 < (splitLines c5src).length ∧
    trimCode c5src
      = joinNL ((splitLines c5src).take 7)
        ++ codeMarker ((splitLines c5src).length - 15)
        ++ joinNL ((splitLines c5src).drop ((splitLines c5src).length - 8)) ∧
    codeMarker ((splitLines c5src).length - 15)
      = "\n... [CODE TRUNCATED - 5 lines omitted] ...\n".toList :=
  ⟨by decide, (C5_code_line_truncation c5src (by decide)).1, by decide⟩

/-- C3 counterexample: a 250-character stream output does not render to 100
characters — the truncated text is 102 characters long. -/
theorem C3_counterexample :
    ¬ ((truncStream (List.replicate 250 'a')).length = 100) := by decide

/-- C3 amended: for a 250-character stream text the rendered output is the
50-character head followed by the 52-character marker (which contains
"STREAM OUTPUT TRUNCATED") and an empty tail, 102 characters in total,
because `max - head - length(marker)` is negative and floored to 0. -/
theorem C3_amended_stream_250 (t : List Char) (h : t.length = 250) :
    truncStream t = t.take 50 ++ streamMarker ∧
    (truncStream t).length = 102 ∧
    streamMarker.length = 52 ∧
    ∃ l r, streamMarker = l ++ "STREAM OUTPUT TRUNCATED".toList ++ r := by
  have hmark : streamMarker.length = 52 := by decide
  have hgt : t.length > MAX_OUTPUT_CHARS_STREAM := by
    rw [h]; norm_num [MAX_OUTPUT_CHARS_STREAM]
  have heq0 : truncStream t
      = t.take 50 ++ streamMarker ++ t.drop (t.length - 0) := by
    unfold truncStream
    rw [if_pos hgt]
    rfl
  have heq : truncStream t = t.take 50 ++ streamMarker := by
    rw [heq0, Nat.sub_zero, List.drop_length, List.append_nil]
  refine ⟨heq, ?_, hmark,
    "\n... [".toList, " - middle omitted] ...\n".toList, by decide⟩
  rw [heq]
  simp only [List.length_append, List.length_take, h, hmark]
  omega

/-- Witness for C3 amended at a concrete 250-character stream text. -/
theorem C3_witness :
    (List.replicate 250 'a').length = 250 ∧
    truncStream (List.replicate 250 'a')
      = (List.replicate 250 'a').take 50 ++ streamMarker ∧
    (truncStream (List.replicate 250 'a')).length = 102 := by
  have h := C3_amended_stream_250 (List.replicate 250 'a') (by decide)
  exact ⟨by decide, h.1, h.2.1⟩

/-- C4 counterexample: a 101-character stream text renders with only 50
retained characters besides the marker, not the configured maximum of 100. -/
theorem C4_counterexample :
    ¬ ((truncStream (List.replicate 101 'b')).length - streamMarker.length
        = MAX_OUTPUT_CHARS_STREAM) := by decide

/-- C4 amended: over-threshold inputs retain, besides the marker, exactly 15
lines for code sources (with the exact omitted count in the marker) and
exactly 100 characters for error text, but only 50 characters for stream
outputs and 100 for execute_result outputs — the configured maximum minus the
marker length, not the maximum itself. -/
theorem C4_amended_retained_units :
    (∀ s, MAX_LINES_PER_CODE_CELL < (splitLines s).length →
      ((splitLines s).take 7).length
          + ((splitLines s).drop ((splitLines s).length - 8)).length
        = MAX_LINES_PER_CODE_CELL ∧
      ∃ l r, codeMarker ((splitLines s).length - MAX_LINES_PER_CODE_CELL)
        = l ++ ((Nat.repr ((splitLines s).length - MAX_LINES_PER_CODE_CELL)).toList
            ++ " lines omitted".toList) ++ r) ∧
    (∀ t, MAX_ERROR_CHARS < t.length →
      truncError t = t.take MAX_ERROR_CHARS ++ errMarker ∧
      (t.take MAX_ERROR_CHARS).length = MAX_ERROR_CHARS) ∧
    (∀ t, MAX_OUTPUT_CHARS_STREAM < t.length →
      truncStream t = t.take 50 ++ streamMarker ∧
      (t.take 50).length = 50) ∧
    (∀ t, MAX_OUTPUT_CHARS_EXEC_RESULT < t.length →
      truncExec t = t.take 75 ++ execMarker ++ t.drop (t.length - 25) ∧
      (t.take 75).length + (t.drop (t.length - 25)).length = 100) := by
  refine ⟨?_, ?_, ?_, ?_⟩
  · intro s h
    have h15 : (15 : Nat) < (splitLines s).length := by
      simpa [MAX_LINES_PER_CODE_CELL] using h
    constructor
    · simp only [List.length_take, List.length_drop, MAX_LINES_PER_CODE_CELL]
      omega
    · refine ⟨"\n... [CODE TRUNCATED - ".toList, "] ...\n".toList, ?_⟩
      unfold codeMarker
      rw [show " lines omitted] ...\n".toList
          = " lines omitted".toList ++ "] ...\n".toList from by decide]
      simp [List.append_assoc]
  · intro t h
    have hgt : t.length > MAX_ERROR_CHARS := h
    constructor
    · unfold truncError
      rw [if_pos hgt]
    · simp only [List.length_take, MAX_ERROR_CHARS] at *
      omega
  · intro t h
    have hgt : t.length > MAX_OUTPUT_CHARS_STREAM := h
    have heq0 : truncStream t
        = t.take 50 ++ streamMarker ++ t.drop (t.length - 0) := by
      unfold truncStream
      rw [if_pos hgt]
      rfl
    constructor
    · rw [heq0, Nat.sub_zero, List.drop_length, List.append_nil]
    · simp only [List.length_take, MAX_OUTPUT_CHARS_STREAM] at *
      omega
  · intro t h
    have hgt : t.length > MAX_OUTPUT_CHARS_EXEC_RESULT := h
    constructor
    · unfold truncExec
      rw [if_pos hgt]
      rfl
    · simp only [List.length_take, List.length_drop, MAX_OUTPUT_CHARS_EXEC_RESULT] at *
      omega

/-- Witness for C4 amended at a concrete 151-character execute_result text. -/
theorem C4_witness :
    MAX_OUTPUT_CHARS_EXEC_RESULT < (List.replicate 151 'c').length ∧
    truncExec (List.replicate 151 'c')
      = (List.replicate 151 'c').take 75 ++ execMarker
        ++ (List.replicate 151 'c').drop ((List.replicate 151 'c').length - 25) ∧
    ((List.replicate 151 'c').take 75).length
      + ((List.replicate 151 'c').drop ((List.replicate 151 'c').length - 25)).length
      = 100 := by
  have h := C4_amended_retained_units.2.2.2 (List.replicate 151 'c') (by decide)
  exact ⟨by decide, h.1, h.2⟩

/-- C6: when the source and every output are at or below their thresholds,
the rendered block is identical to the untruncated render. -/
theorem C6_no_truncation_identity (idx : Nat) (c : Cell)
    (hcode : c.type = "code".toList →
      (splitLines (pyStrip c.source)).length ≤ MAX_LINES_PER_CODE_CELL)
    (hmd : c.type = "markdown".toList →
      (pyStrip c.source).length ≤ MAX_CHARS_PER_MD_CELL)
    (hstream : ∀ o ∈ c.outputs, o.output_type = "stream".toList →
      o.text.length ≤ MAX_OUTPUT_CHARS_STREAM)
    (hexec : ∀ o ∈ c.outputs, o.output_type = "execute_result".toList →
      ∀ v, dataGet o.data "text/plain".toList = some v →
        (normPlain v).length ≤ MAX_OUTPUT_CHARS_EXEC_RESULT)
    (herr : ∀ o ∈ c.outputs, o.output_type = "error".toList →
      (errorText o.ename o.evalue).length ≤ MAX_ERROR_CHARS) :
    blockAt idx c = blockAtU idx c := by
  have hparts : cellParts c = cellPartsU c := by
    unfold cellParts cellPartsU
    by_cases h1 : c.type = "code".toList
    · have hlen := hcode h1
      simp only [h1, if_true, trimCode]
      rw [if_neg (by omega)]
    · simp only [h1, if_false]
      by_cases h2 : c.type = "markdown".toList
      · have hlen := hmd h2
        simp only [h2, if_true, trimMarkdown]
        rw [if_neg (by omega)]
      · simp only [h2, if_false]
  have houts : outputParts c = outputPartsU c := by
    unfold outputParts outputPartsU
    by_cases h1 : c.type = "code".toList
    · simp only [h1, if_true]
      congr 1
      apply List.map_congr_left
      intro o ho
      exact renderOutput_eq_untruncated o (hstream o ho) (hexec o ho) (herr o ho)
    · simp only [h1, if_false]
  unfold blockAt blockAtU cellContent
  rw [hparts, houts]

def c6cell : Cell :=
  { type := "code".toList,
    source := "x = 1\ny = 2".toList,
    outputs :=
      [ { output_type := "stream".toList, text := "hello".toList },
        { output_type := "execute_result".toList,
          data := [("text/plain".toList, JVal.arr ["1".toList, "2".toList])] },
        { output_type := "error".toList,
          ename := "ValueError".toList, evalue := "bad".toList },
        { output_type := "display_data".toList } ] }

/-- Witness for C6 at a concrete small code cell with one output of each kind. -/
theorem C6_witness : blockAt 0 c6cell = blockAtU 0 c6cell :=
  C6_no_truncation_identity 0 c6cell (by decide) (by decide) (by decide)
    (by
      intro o ho htype v hv
      simp only [c6cell] at ho
      fin_cases ho
      · simp [dataGet] at hv
      · simp [dataGet] at hv
        subst hv
        decide
      · simp [dataGet] at hv
      · simp [dataGet] at hv)
    (by decide)

/-- C8: with both state slots non-empty, the composed prompt is the strip of
the fixed preamble, the assembled notebook section, the guidelines section
and the fixed tail, and the guidelines section lists exactly the input
guidelines, each numbered by its 1-based input position, in input order. -/
theorem C8_guideline_numbering (gs : List (List Char)) (cells : List Cell)
    (h1 : gs ≠ []) (h2 : cells ≠ []) :
    getPromptCore gs cells
      = pyStrip (promptHead ++ finalNotebookContentStr cells ++ promptMid
          ++ glLoop 1 gs ++ promptTail) ∧
    glLoop 1 gs
      = (((List.range gs.length).zip gs).map (fun p => glLine (p.1 + 1) p.2)).join := by
  constructor
  · unfold getPromptCore
    rw [if_neg h1, if_neg h2]
  · exact glLoop_eq gs 1

def c8cells : List Cell := [{ type := "code".toList, source := ['x'], outputs := [] }]

/-- Witness for C8 at two concrete guidelines. -/
theorem C8_witness :
    glLoop 1 ["Alpha".toList, "Beta".toList]
      = (((List.range 2).zip ["Alpha".toList, "Beta".toList]).map
          (fun p => glLine (p.1 + 1) p.2)).join ∧
    glLoop 1 ["Alpha".toList, "Beta".toList]
      = "Guideline 1: Alpha\nGuideline 2: Beta\n".toList := by
  have h := C8_guideline_numbering ["Alpha".toList, "Beta".toList] c8cells
    (by simp) (by simp [c8cells])
  exact ⟨h.2, by decide⟩

/-- C1: at the first cell whose header plus rendered body would push the
running total over the budget, the assembler emits only that cell's header
followed by the skip marker and processes no further cells; all earlier cells
appear as their full rendered blocks, in original order.  No hypothesis is
placed on the cells after the overflowing one. -/
theorem C1_assembler_first_overflow_stops (cells : List Cell) (k : Nat)
    (hk : k < cells.length)
    (hov : MAX_TOTAL_NOTEBOOK_CHARS < sumUpTo 0 cells (k + 1))
    (hfit : ∀ j, j < k → sumUpTo 0 cells (j + 1) ≤ MAX_TOTAL_NOTEBOOK_CHARS) :
    finalNotebookContentStr cells
      = joinSep sepNN ((blocksFrom 0 cells).take k
          ++ [cellHeader k (cells.get ⟨k, hk⟩) ++ skipMarker]) := by
  have h := assembleGo_stop cells 0 0 k hk (by simpa using hov)
    (by intro j hj; simpa using hfit j hj)
  rw [Nat.zero_add] at h
  unfold finalNotebookContentStr
  rw [h]

def c1small : Cell := { type := "code".toList, source := ['x'], outputs := [] }

def c1big : Cell :=
  { type := "code".toList, source := List.replicate 150001 'a', outputs := [] }

def c1cells : List Cell :=
  [c1small, c1small, c1small, c1small, c1small, c1small, c1big,
   c1small, c1small, c1small]

lemma c1big_content : cellContent c1big = List.replicate 150001 'a' :=
  cellContent_code_plain (List.replicate 150001 'a')
    (by intro c hc; rw [List.eq_of_mem_replicate hc]; decide)

lemma c1big_block_len : (blockAt 6 c1big).length = 150017 := by
  have hh : (cellHeader 6 c1big).length = 16 := by decide
  rw [blockAt_length, c1big_content, hh, List.length_replicate]

lemma c1_sum7 : sumUpTo 0 c1cells 7 = 150119 := by
  have hsplit : (blocksFrom 0 c1cells).take 7
      = (blocksFrom 0 c1cells).take 6 ++ [blockAt 6 c1big] := by
    rw [List.take_succ]
    congr 1
  show (((blocksFrom 0 c1cells).take 7).map List.length).sum = 150119
  rw [hsplit, List.map_append, List.sum_append]
  have h6 : (((blocksFrom 0 c1cells).take 6).map List.length).sum = 102 := by decide
  rw [List.map_cons, List.map_nil, List.sum_cons, List.sum_nil, h6, c1big_block_len]
  norm_num

/-- Witness for C1: ten cells where the seventh overflows the budget; the
output is blocks 1-6 verbatim, then cell 7's header plus the skip marker,
and nothing for cells 8-10. -/
theorem C1_witness :
    6 < c1cells.length ∧
    MAX_TOTAL_NOTEBOOK_CHARS < sumUpTo 0 c1cells 7 ∧
    finalNotebookContentStr c1cells
      = joinSep sepNN ((blocksFrom 0 c1cells).take 6
          ++ [cellHeader 6 c1big ++ skipMarker]) := by
  have hk : 6 < c1cells.length := by decide
  have hov : MAX_TOTAL_NOTEBOOK_CHARS < sumUpTo 0 c1cells 7 := by
    rw [c1_sum7]; norm_num [MAX_TOTAL_NOTEBOOK_CHARS]
  have hfit : ∀ j, j < 6 → sumUpTo 0 c1cells (j + 1) ≤ MAX_TOTAL_NOTEBOOK_CHARS := by
    intro j hj
    interval_cases j <;> decide
  have h := C1_assembler_first_overflow_stops c1cells 6 hk hov hfit
  exact ⟨hk, hov, h⟩

/-- C2 amended: the assembled notebook-content string length is bounded by
the budget plus one header plus the skip marker plus two separator characters
for each emitted block — `(assembleGo 0 0 cells).length` is the number of
blocks the assembler actually emits, not the number of input cells (the
`"\n\n"` join separators are not counted against the running total). -/
theorem C2_amended_total_length_bound (cells : List Cell) :
    (finalNotebookContentStr cells).length
      ≤ MAX_TOTAL_NOTEBOOK_CHARS + maxHeaderFrom 0 cells + skipMarker.length
        + 2 * (assembleGo 0 0 cells).length := by
  unfold finalNotebookContentStr
  have h1 := joinSep_length_le (assembleGo 0 0 cells)
  have h2 := assembleGo_sum_le cells 0 0 (by norm_num [MAX_TOTAL_NOTEBOOK_CHARS])
  omega

def c2cell : Cell :=
  { type := "code".toList, source := List.replicate 1483 'a', outputs := [] }

def c2cells : List Cell := List.replicate 100 c2cell

lemma c2cell_content : cellContent c2cell = List.replicate 1483 'a' :=
  cellContent_code_plain (List.replicate 1483 'a')
    (by intro c hc; rw [List.eq_of_mem_replicate hc]; decide)

lemma blocksFrom_replicate_c2 :
    ∀ (n idx : Nat),
      (blocksFrom idx (List.replicate n c2cell)).map List.length
        = (List.range n).map (fun j => (cellHeader (idx + j) c2cell).length + 1483)
  | 0, _ => by simp [blocksFrom]
  | n + 1, idx => by
    have ih := blocksFrom_replicate_c2 n (idx + 1)
    rw [List.replicate_succ]
    simp only [blocksFrom, List.map_cons, ih, List.range_succ_eq_map, List.map_map]
    congr 1
    · rw [show idx + 0 = idx from rfl, blockAt_length, c2cell_content,
        List.length_replicate]
    · apply List.map_congr_left
      intro j _
      simp only [Function.comp_apply]
      rw [show idx + 1 + j = idx + j.succ from by omega]

/-- C2 counterexample: 100 identical code cells of 1483 characters all fit
under the budget (running total 149992), yet the blank-line join separators
push the final string to 150190 characters, which exceeds the budget plus the
largest cell header plus the skip marker (150117). -/
theorem C2_counterexample :
    ¬ ((finalNotebookContentStr c2cells).length
        ≤ MAX_TOTAL_NOTEBOOK_CHARS + maxHeaderFrom 0 c2cells + skipMarker.length) := by
  have hmap := blocksFrom_replicate_c2 100 0
  have hsum : ((blocksFrom 0 c2cells).map List.length).sum = 149992 := by
    show ((blocksFrom 0 (List.replicate 100 c2cell)).map List.length).sum = 149992
    rw [hmap]
    decide
  have hcount : (blocksFrom 0 c2cells).length = 100 := by
    rw [blocksFrom_length]
    decide
  have hne : blocksFrom 0 c2cells ≠ [] := by
    intro hnil
    rw [hnil] at hcount
    simp at hcount
  have hall : assembleGo 0 0 c2cells = blocksFrom 0 c2cells :=
    assembleGo_all_fit c2cells 0 0
      (by rw [Nat.zero_add, hsum]; norm_num [MAX_TOTAL_NOTEBOOK_CHARS])
  have hlen : (finalNotebookContentStr c2cells).length = 150190 := by
    unfold finalNotebookContentStr
    rw [hall, joinSep_length_eq _ hne, hsum, hcount]
  have hmax : maxHeaderFrom 0 c2cells = 18 := by decide
  have hskip : skipMarker.length = 99 := by decide
  rw [hlen, hmax, hskip]
  norm_num [MAX_TOTAL_NOTEBOOK_CHARS]
